import Mathlib

/-!
Verification of the resume-analyzer application (src/RESUME_ANALYZERR/app.py)
against its natural-language specification.

The program's own logic is shallowly embedded here:
  - text is `List Char`;
  - the regular-expression search `re.search(r"\x7b[\s\S]*\x7d", text)` is
    embedded as `reSearchBraces` (leftmost match of a pattern whose greedy
    star makes the match extend to the last closing brace);
  - Python's `json.loads` is embedded as `json_loads`, a fuel-structured
    recursive-descent decoder covering objects, arrays, strings with the
    simple escapes, integers, and the literals true/false/null (floats and
    \u escapes are outside the model; every theorem below either applies
    the decoder to the same string on both sides or uses it on inputs the
    modelled subset covers);
  - raised Python exceptions are `none` / `Except.error`, so a function that
    cannot raise is one whose embedding never produces them;
  - the remote model client (`safe_groq_call`) is an external effect and is
    passed in as the outcome `call : Except GroqError (List Char)` of the
    one call each wrapper makes.
-/

namespace ResumeAnalyzer

/-- The decoded JSON values `json.loads` produces: Python's None, bool, int,
str, list and dict (dict as an ordered association list with distinct keys,
as built by `dictInsert`). Floats are outside the model. -/
inductive Json where
  | null : Json
  | bool : Bool → Json
  | num : Int → Json
  | str : List Char → Json
  | arr : List Json → Json
  | obj : List (List Char × Json) → Json
  deriving Repr

/-- The opening-brace character, written via its code point. -/
def lbrace : Char := Char.ofNat 123

/-- The closing-brace character, written via its code point. -/
def rbrace : Char := Char.ofNat 125

/-- The double-quote character that delimits JSON strings. -/
def quoteChar : Char := Char.ofNat 34

/-- The backslash character that starts a JSON string escape. -/
def backslashChar : Char := Char.ofNat 92

/-- JSON insignificant whitespace: space, tab, line feed, carriage return. -/
def isWs (c : Char) : Bool :=
  c = ' ' || c = Char.ofNat 9 || c = Char.ofNat 10 || c = Char.ofNat 13

/-- Drop leading JSON whitespace. -/
def skipWs (s : List Char) : List Char := s.dropWhile isWs

/-- Numeric value of a digit run, most significant first. -/
def natOfDigits (ds : List Char) : Nat :=
  ds.foldl (fun acc c => acc * 10 + (c.toNat - 48)) 0

/-- Parse a JSON integer literal's digit run: nonempty, and no leading zero
unless the number is exactly 0. Returns the value and the rest of the input. -/
def parseNatNum (s : List Char) : Option (Nat × List Char) :=
  let ds := s.takeWhile Char.isDigit
  if ds = [] then none
  else if 1 < ds.length ∧ ds.head? = some '0' then none
  else some (natOfDigits ds, s.dropWhile Char.isDigit)

/-- Parse a JSON number (integers only: an optional minus sign and digits). -/
def parseNumber (s : List Char) : Option (Json × List Char) :=
  match s with
  | '-' :: rest => (parseNatNum rest).map fun p => (Json.num (-(p.1 : Int)), p.2)
  | _ => (parseNatNum s).map fun p => (Json.num (p.1 : Int), p.2)

/-- The character a simple JSON string escape `\c` denotes, `none` when `c`
is not one of the simple escapes (so `\uXXXX` is outside the model). -/
def escChar (c : Char) : Option Char :=
  if c = quoteChar then some quoteChar
  else if c = backslashChar then some backslashChar
  else if c = '/' then some '/'
  else if c = 'b' then some (Char.ofNat 8)
  else if c = 'f' then some (Char.ofNat 12)
  else if c = 'n' then some (Char.ofNat 10)
  else if c = 'r' then some (Char.ofNat 13)
  else if c = 't' then some (Char.ofNat 9)
  else none

/-- Parse the body of a JSON string after the opening quote, up to and
consuming the closing quote. Control characters must be escaped. -/
def parseStringBody : Nat → List Char → Option (List Char × List Char)
  | 0, _ => none
  | _ + 1, [] => none
  | fuel + 1, c :: rest =>
    if c = quoteChar then some ([], rest)
    else if c = backslashChar then
      match rest with
      | [] => none
      | e :: rest2 =>
        match escChar e with
        | some d => (parseStringBody fuel rest2).map fun p => (d :: p.1, p.2)
        | none => none
    else if c.toNat < 32 then none
    else (parseStringBody fuel rest).map fun p => (c :: p.1, p.2)

/-- Insert a key/value pair into a Python dict: an existing key keeps its
position and gets the new value, a new key is appended. -/
def dictInsert (d : List (List Char × Json)) (k : List Char) (v : Json) :
    List (List Char × Json) :=
  match d with
  | [] => [(k, v)]
  | (k', v') :: rest => if k' = k then (k', v) :: rest else (k', v') :: dictInsert rest k v

/-- Build a Python dict from parsed members in order; duplicate keys
overwrite in place, as in Python. -/
def objFromPairs (ps : List (List Char × Json)) : List (List Char × Json) :=
  ps.foldl (fun d kv => dictInsert d kv.1 kv.2) []

mutual

/-- Parse one JSON value at the head of the input (no leading whitespace).
Fuel bounds the recursion; `json_loads` supplies more than enough. -/
def parseValue : Nat → List Char → Option (Json × List Char)
  | 0, _ => none
  | _ + 1, [] => none
  | fuel + 1, c :: rest =>
    if c = lbrace then
      (parseObjBody fuel (skipWs rest)).map fun p => (Json.obj (objFromPairs p.1), p.2)
    else if c = '[' then
      (parseArrBody fuel (skipWs rest)).map fun p => (Json.arr p.1, p.2)
    else if c = quoteChar then
      (parseStringBody fuel rest).map fun p => (Json.str p.1, p.2)
    else if c = 't' then
      if rest.take 3 = ['r', 'u', 'e'] then some (Json.bool true, rest.drop 3) else none
    else if c = 'f' then
      if rest.take 4 = ['a', 'l', 's', 'e'] then some (Json.bool false, rest.drop 4) else none
    else if c = 'n' then
      if rest.take 3 = ['u', 'l', 'l'] then some (Json.null, rest.drop 3) else none
    else parseNumber (c :: rest)

/-- Parse what follows an object's opening brace (whitespace skipped):
either the closing brace or a member list. -/
def parseObjBody : Nat → List Char → Option (List (List Char × Json) × List Char)
  | 0, _ => none
  | _ + 1, [] => none
  | fuel + 1, c :: rest =>
    if c = rbrace then some ([], rest)
    else parseMembers fuel (c :: rest)

/-- Parse one or more `"key": value` members separated by commas, then the
closing brace. -/
def parseMembers : Nat → List Char → Option (List (List Char × Json) × List Char)
  | 0, _ => none
  | _ + 1, [] => none
  | fuel + 1, c :: rest =>
    if c = quoteChar then
      match parseStringBody fuel rest with
      | none => none
      | some (k, r1) =>
        match skipWs r1 with
        | ':' :: r2 =>
          match parseValue fuel (skipWs r2) with
          | none => none
          | some (v, r3) =>
            match skipWs r3 with
            | ',' :: r4 =>
              (parseMembers fuel (skipWs r4)).map fun p => ((k, v) :: p.1, p.2)
            | d :: r4 => if d = rbrace then some ([(k, v)], r4) else none
            | [] => none
        | _ => none
    else none

/-- Parse what follows an array's opening bracket (whitespace skipped):
either the closing bracket or an item list. -/
def parseArrBody : Nat → List Char → Option (List Json × List Char)
  | 0, _ => none
  | _ + 1, [] => none
  | fuel + 1, c :: rest =>
    if c = ']' then some ([], rest)
    else parseItems fuel (c :: rest)

/-- Parse one or more array items separated by commas, then the closing
bracket. -/
def parseItems : Nat → List Char → Option (List Json × List Char)
  | 0, _ => none
  | fuel + 1, s =>
    match parseValue fuel s with
    | none => none
    | some (v, r1) =>
      match skipWs r1 with
      | ',' :: r2 => (parseItems fuel (skipWs r2)).map fun p => (v :: p.1, p.2)
      | d :: r2 => if d = ']' then some ([v], r2) else none
      | [] => none

end

/-- Embeds Python's `json.loads`: decode one JSON document from the whole
input (surrounding whitespace allowed, trailing data an error). `none` is
the raised `JSONDecodeError`. -/
def json_loads (s : List Char) : Option Json :=
  match parseValue (s.length + 1) (skipWs s) with
  | some (v, rest) => if skipWs rest = [] then some v else none
  | none => none

/-- Index of the last occurrence of `c` in `s`, if any. This is where the
greedy star of the search pattern stops backtracking. -/
def lastIdx (c : Char) : List Char → Option Nat
  | [] => none
  | a :: rest =>
    match lastIdx c rest with
    | some j => some (j + 1)
    | none => if a = c then some 0 else none

/-- Try to match the pattern `\x7b[\s\S]*\x7d` anchored at the head of `s`:
the head must be an opening brace, and the greedy star extends the match to
the last closing brace of the remainder. -/
def matchBracesAt : List Char → Option (List Char)
  | [] => none
  | a :: rest =>
    if a = lbrace then
      match lastIdx rbrace rest with
      | some j => some (lbrace :: rest.take (j + 1))
      | none => none
    else none

/-- Embeds `re.search(r"\x7b[\s\S]*\x7d", text).group()`: the match at the
leftmost position where one exists, `none` when the pattern matches
nowhere. -/
def reSearchBraces : List Char → Option (List Char)
  | [] => none
  | a :: rest =>
    match matchBracesAt (a :: rest) with
    | some m => some m
    | none => reSearchBraces rest

/-- Embeds `extract_json` from app.py: search for the brace-delimited span
and decode it with `json.loads`; no match, or a decode error (caught by the
bare except), yields `None`. -/
def extract_json (text : List Char) : Option Json :=
  match reSearchBraces text with
  | some m => json_loads m
  | none => none

/-- Index of the first occurrence of `c` in `s`, if any. -/
def firstIdx (c : Char) : List Char → Option Nat
  | [] => none
  | a :: rest => if a = c then some 0 else (firstIdx c rest).map (· + 1)

/-- The span the spec's words describe: from the first opening brace in the
text to the last closing brace in the text, provided the first opening brace
comes strictly before the last closing brace; otherwise there is no span. -/
def specSpan (s : List Char) : Option (List Char) :=
  match firstIdx lbrace s, lastIdx rbrace s with
  | some i, some j => if i < j then some ((s.drop i).take (j - i + 1)) else none
  | _, _ => none

theorem lastIdx_eq_none {c : Char} {s : List Char} (h : c ∉ s) : lastIdx c s = none := by
  induction s with
  | nil => rfl
  | cons a rest ih =>
    rw [List.mem_cons, not_or] at h
    have ha : a ≠ c := fun e => h.1 e.symm
    simp [lastIdx, ih h.2, ha]

theorem lastIdx_append {c : Char} {post : List Char} (h : c ∉ post) :
    ∀ xs : List Char, lastIdx c (xs ++ post) = lastIdx c xs := by
  intro xs
  induction xs with
  | nil => simpa using lastIdx_eq_none h
  | cons a rest ih => simp [lastIdx, ih]

theorem lastIdx_of_getLast {c : Char} :
    ∀ (s : List Char), s.getLast? = some c → lastIdx c s = some (s.length - 1)
  | [], h => by simp at h
  | [a], h => by
    rw [List.getLast?_singleton, Option.some.injEq] at h
    simp [lastIdx, h]
  | a :: b :: t, h => by
    rw [List.getLast?_cons_cons] at h
    have ih := lastIdx_of_getLast (b :: t) h
    rw [lastIdx, ih]
    simp only [List.length_cons, Option.some.injEq]
    omega

theorem reSearchBraces_append {pre : List Char} (h : lbrace ∉ pre) (s : List Char) :
    reSearchBraces (pre ++ s) = reSearchBraces s := by
  induction pre with
  | nil => rfl
  | cons a rest ih =>
    rw [List.mem_cons, not_or] at h
    have ha : a ≠ lbrace := fun e => h.1 e.symm
    simp [reSearchBraces, matchBracesAt, ha, ih h.2]

theorem reSearchBraces_of_not_mem {s : List Char} (h : lbrace ∉ s) :
    reSearchBraces s = none := by
  have := reSearchBraces_append h []
  simpa using this

/-- The search finds exactly the embedded object when the prose around it
holds no opening brace before it and no closing brace after it. -/
theorem reSearchBraces_exact {pre obj post : List Char}
    (hpre : lbrace ∉ pre) (hpost : rbrace ∉ post)
    (hhead : obj.head? = some lbrace) (hlast : obj.getLast? = some rbrace) :
    reSearchBraces (pre ++ obj ++ post) = some obj := by
  obtain ⟨mid, rfl⟩ : ∃ mid, obj = lbrace :: mid := by
    cases obj with
    | nil => simp at hhead
    | cons c t =>
      rw [List.head?_cons, Option.some.injEq] at hhead
      exact ⟨t, by rw [hhead]⟩
  have hmid : mid.getLast? = some rbrace := by
    cases mid with
    | nil =>
      rw [List.getLast?_singleton, Option.some.injEq] at hlast
      exact absurd hlast (by decide)
    | cons b t => rwa [List.getLast?_cons_cons] at hlast
  have hne : mid ≠ [] := by
    intro e
    rw [e] at hmid
    simp at hmid
  have hlen : mid.length - 1 + 1 = mid.length :=
    Nat.succ_pred_eq_of_pos (List.length_pos.mpr hne)
  rw [List.append_assoc, reSearchBraces_append hpre, List.cons_append]
  simp [reSearchBraces, matchBracesAt, lastIdx_append hpost, lastIdx_of_getLast _ hmid,
    hlen, List.take_left]

/-- C1: for input text holding exactly one well-formed JSON object surrounded
by brace-free prose, `extract_json` returns the record obtained by decoding
that object directly with the JSON decoder. -/
theorem extract_json_single_object (pre obj post : List Char) (v : Json)
    (hpre1 : lbrace ∉ pre) (_hpre2 : rbrace ∉ pre)
    (_hpost1 : lbrace ∉ post) (hpost2 : rbrace ∉ post)
    (hhead : obj.head? = some lbrace) (hlast : obj.getLast? = some rbrace)
    (hdec : json_loads obj = some v) :
    extract_json (pre ++ obj ++ post) = some v := by
  unfold extract_json
  rw [reSearchBraces_exact hpre1 hpost2 hhead hlast]
  exact hdec

/-- Witness for C1, on the spec's own end-to-end example text. -/
theorem extract_json_single_object_witness :
    extract_json ("Here is the result: ".toList ++
        "\x7b\"ats_score\": 72, \"skills_found\": [\"SQL\"]\x7d".toList ++ " extras".toList) =
      some (Json.obj [("ats_score".toList, Json.num 72),
        ("skills_found".toList, Json.arr [Json.str "SQL".toList])]) :=
  extract_json_single_object _ _ _ _ (by decide) (by decide) (by decide) (by decide)
    (by decide) (by decide) (by rfl)

theorem specSpan_no_close {s : List Char} (h : lastIdx rbrace s = none) :
    specSpan s = none := by
  rcases hf : firstIdx lbrace s with _ | i <;> simp [specSpan, hf, h]

theorem specSpan_cons (a : Char) (rest : List Char) (ha : a ≠ lbrace) :
    specSpan (a :: rest) = specSpan rest := by
  rcases hf : firstIdx lbrace rest with _ | i
  · have h1 : firstIdx lbrace (a :: rest) = none := by simp [firstIdx, ha, hf]
    rcases hl : lastIdx rbrace (a :: rest) with _ | j <;>
      rcases hl' : lastIdx rbrace rest with _ | j' <;>
        simp [specSpan, h1, hf, hl, hl']
  · rcases hl : lastIdx rbrace rest with _ | j
    · by_cases hr : a = rbrace
      · simp [specSpan, firstIdx, lastIdx, ha, hr, hf, hl, show rbrace ≠ lbrace by decide]
      · simp [specSpan, firstIdx, lastIdx, ha, hr, hf, hl]
    · simp [specSpan, firstIdx, lastIdx, ha, hf, hl, Nat.succ_lt_succ_iff, Nat.succ_sub_succ]

theorem reSearchBraces_eq_specSpan : ∀ s : List Char, reSearchBraces s = specSpan s := by
  intro s
  induction s with
  | nil => rfl
  | cons a rest ih =>
    by_cases ha : a = lbrace
    · subst ha
      rcases h : lastIdx rbrace rest with _ | j
      · have hc : lastIdx rbrace (lbrace :: rest) = none := by
          simp [lastIdx, h, show lbrace ≠ rbrace by decide]
        rw [show reSearchBraces (lbrace :: rest) = reSearchBraces rest by
            simp [reSearchBraces, matchBracesAt, h], ih, specSpan_no_close h,
          specSpan_no_close hc]
      · simp [reSearchBraces, matchBracesAt, h, specSpan, firstIdx, lastIdx]
    · rw [show reSearchBraces (a :: rest) = reSearchBraces rest by
          simp [reSearchBraces, matchBracesAt, ha], ih, specSpan_cons a rest ha]

/-- C2: for every input text, the substring the extractor attempts to decode
is exactly the span from the first opening brace in the text to the last
closing brace in the text (the greedy match), and when no such span exists
the extractor attempts no decode and returns the no-result outcome. -/
theorem extract_json_decodes_greedy_span (text : List Char) :
    reSearchBraces text = specSpan text ∧
    (∀ m, specSpan text = some m → extract_json text = json_loads m) ∧
    (specSpan text = none → extract_json text = none) := by
  refine ⟨reSearchBraces_eq_specSpan text, fun m h => ?_, fun h => ?_⟩ <;>
    unfold extract_json <;> rw [reSearchBraces_eq_specSpan text, h]

/-- Witness for C2: a text with prose braces decodes exactly its
first-to-last brace span, and a text whose first opening brace comes after
its last closing brace has no span, so nothing is decoded. -/
theorem extract_json_decodes_greedy_span_witness :
    extract_json "a\x7bb\x7dc".toList = json_loads "\x7bb\x7d".toList ∧
    extract_json "\x7da\x7b".toList = none :=
  ⟨(extract_json_decodes_greedy_span "a\x7bb\x7dc".toList).2.1
      "\x7bb\x7d".toList (by decide),
    (extract_json_decodes_greedy_span "\x7da\x7b".toList).2.2 (by decide)⟩

/-- C3: with no brace-delimited span in the text (in particular with no
braces at all), or with a span whose JSON decode fails, the extractor
returns the explicit no-result outcome; the bare except means no exception
escapes, which the embedding states by these cases exhausting every failure. -/
theorem extract_json_failure_yields_none (text : List Char) :
    (reSearchBraces text = none → extract_json text = none) ∧
    (lbrace ∉ text → extract_json text = none) ∧
    (∀ m, reSearchBraces text = some m → json_loads m = none → extract_json text = none) := by
  refine ⟨fun h => ?_, fun h => ?_, fun m hm hd => ?_⟩
  · unfold extract_json
    rw [h]
  · unfold extract_json
    rw [reSearchBraces_of_not_mem h]
  · unfold extract_json
    rw [hm]
    exact hd

/-- Witness for C3: a brace-free text, and a text whose matched span is not
valid JSON, both yield the no-result outcome. -/
theorem extract_json_failure_yields_none_witness :
    extract_json "I cannot compute this.".toList = none ∧
    extract_json "\x7boops\x7d".toList = none :=
  ⟨(extract_json_failure_yields_none "I cannot compute this.".toList).2.1 (by decide),
    (extract_json_failure_yields_none "\x7boops\x7d".toList).2.2
      "\x7boops\x7d".toList (by rfl) (by rfl)⟩

/-- Embeds Python's `d.get(key, dflt)` on a decoded record. -/
def dictGet (d : List (List Char × Json)) (k : List Char) (dflt : Json) : Json :=
  match d with
  | [] => dflt
  | (k', v) :: rest => if k' = k then v else dictGet rest k dflt

/-- The `"ats_score"` key the handler and the report generator read. -/
def atsScoreKey : List Char := "ats_score".toList

/-- Strip leading and trailing whitespace, as Python `int(str)` does. -/
def stripWs (s : List Char) : List Char :=
  ((s.dropWhile isWs).reverse.dropWhile isWs).reverse

/-- Value of a nonempty all-digit run, `none` otherwise. -/
def digitsVal (ds : List Char) : Option Nat :=
  if ds ≠ [] ∧ ds.all Char.isDigit then some (natOfDigits ds) else none

/-- Embeds Python `int(s)` on a string: surrounding whitespace, an optional
sign, then digits; anything else raises ValueError, modelled as `none`. -/
def pyIntOfString (s : List Char) : Option Int :=
  match stripWs s with
  | '-' :: ds => (digitsVal ds).map fun n => -(n : Int)
  | '+' :: ds => (digitsVal ds).map fun n => (n : Int)
  | ds => (digitsVal ds).map fun n => (n : Int)

/-- Embeds Python `int(x)` on a decoded JSON value: ints pass through,
booleans become 0 or 1, numeric strings are parsed, and everything else
(None, lists, dicts, non-numeric strings) raises, modelled as `none`. -/
def pyInt : Json → Option Int
  | .num n => some n
  | .bool b => some (if b then 1 else 0)
  | .str s => pyIntOfString s
  | _ => none

/-- Embeds the handler line
`score = max(0, min(100, int(ats.get("ats_score", 0))))`; `none` is the
exception `int` raises on a non-numeric value, in which case the clamp is
never reached and the handler shows no analysis output. -/
def score (ats : List (List Char × Json)) : Option Int :=
  (pyInt (dictGet ats atsScoreKey (Json.num 0))).map fun n => max 0 (min 100 n)

/-- Embeds the handler's rating conditional expression. -/
def rating (s : Int) : String :=
  if s ≥ 85 then "🌟 Excellent Match"
  else if s ≥ 70 then "✅ Strong Match"
  else if s ≥ 50 then "⚠ Average Match"
  else "❌ Weak Match"

/-- C4: for every integer ats_score value, also ones outside [0,100], the
displayed score is the value clamped to [0,100]: below 0 shows as 0, above
100 shows as 100, inside the range it is unchanged. -/
theorem score_clamped (ats : List (List Char × Json)) (n : Int)
    (h : dictGet ats atsScoreKey (Json.num 0) = Json.num n) :
    score ats = some (if n < 0 then 0 else if 100 < n then 100 else n) := by
  unfold score
  rw [h]
  simp only [pyInt, Option.map_some', Option.some.injEq]
  omega

/-- Witness for C4 at the spec's own out-of-range examples and one in-range
value. -/
theorem score_clamped_witness :
    score [(atsScoreKey, Json.num (-10))] = some 0 ∧
    score [(atsScoreKey, Json.num 150)] = some 100 ∧
    score [(atsScoreKey, Json.num 72)] = some 72 :=
  ⟨score_clamped [(atsScoreKey, Json.num (-10))] (-10) rfl,
    score_clamped [(atsScoreKey, Json.num 150)] 150 rfl,
    score_clamped [(atsScoreKey, Json.num 72)] 72 rfl⟩

/-- C5: the score-to-rating mapping is total on the clamped range with
exactly the four stated cases. -/
theorem rating_cases (s : Int) (h0 : 0 ≤ s) (h100 : s ≤ 100) :
    (85 ≤ s → rating s = "🌟 Excellent Match") ∧
    (70 ≤ s → s < 85 → rating s = "✅ Strong Match") ∧
    (50 ≤ s → s < 70 → rating s = "⚠ Average Match") ∧
    (s < 50 → rating s = "❌ Weak Match") := by
  refine ⟨fun h => ?_, fun h1 h2 => ?_, fun h1 h2 => ?_, fun h => ?_⟩ <;>
    simp only [rating] <;> split_ifs <;> first | rfl | omega

/-- Witness for C5 at the three boundary points and both extremes. -/
theorem rating_cases_witness :
    rating 85 = "🌟 Excellent Match" ∧ rating 100 = "🌟 Excellent Match" ∧
    rating 70 = "✅ Strong Match" ∧ rating 50 = "⚠ Average Match" ∧
    rating 0 = "❌ Weak Match" :=
  ⟨(rating_cases 85 (by decide) (by decide)).1 (by decide),
    (rating_cases 100 (by decide) (by decide)).1 (by decide),
    (rating_cases 70 (by decide) (by decide)).2.1 (by decide) (by decide),
    (rating_cases 50 (by decide) (by decide)).2.2.1 (by decide) (by decide),
    (rating_cases 0 (by decide) (by decide)).2.2.2 (by decide)⟩

/-- C10: the displayed-score computation is not total: an ats_score field
holding the string N/A, or null, makes `int(...)` raise before any clamping,
so no score (and no analysis output) is produced, modelled as `none`. -/
theorem score_raises_on_nonnumeric :
    score [(atsScoreKey, Json.str ['N', '/', 'A'])] = none ∧
    score [(atsScoreKey, Json.null)] = none := by
  constructor <;> rfl

/-- The kinds of failure the remote analysis client can raise. -/
inductive GroqError where
  | transport : GroqError
  | auth : GroqError
  | quota : GroqError

/-- Python truthiness of a decoded JSON value; this is what the
`or \x7b\x7d` coercion tests. -/
def jsonTruthy : Json → Bool
  | .null => false
  | .bool b => b
  | .num n => n != 0
  | .str s => !s.isEmpty
  | .arr xs => !xs.isEmpty
  | .obj fs => !fs.isEmpty

/-- Embeds `extract_json(raw) or \x7b\x7d`: a missing or falsy extraction
result is replaced by the empty dict. -/
def orEmptyDict : Option Json → Json
  | some j => if jsonTruthy j then j else Json.obj []
  | none => Json.obj []

/-- Embeds `groq_full_analysis`. The one remote call it makes is passed in
as its outcome `call` (the prompt strings do not affect the modelled
behavior). The try block keeps `extract_json(raw) or \x7b\x7d`, and the
bare except turns any raised failure into the empty dict. -/
def groq_full_analysis (call : Except GroqError (List Char)) : Except GroqError Json :=
  match call with
  | .ok raw => .ok (orEmptyDict (extract_json raw))
  | .error _ => .ok (Json.obj [])

/-- Embeds `groq_career_recommendation`, shaped exactly like
`groq_full_analysis`: try, extract, `or \x7b\x7d`, bare except. -/
def groq_career_recommendation (call : Except GroqError (List Char)) : Except GroqError Json :=
  match call with
  | .ok raw => .ok (orEmptyDict (extract_json raw))
  | .error _ => .ok (Json.obj [])

/-- Embeds `groq_summary`: returns the remote call's text with no
try/except, so a raised failure propagates to the caller. -/
def groq_summary (call : Except GroqError (List Char)) : Except GroqError (List Char) :=
  call

/-- Embeds `groq_ats_explanation`: returns the remote call's text with no
try/except, so a raised failure propagates to the caller. -/
def groq_ats_explanation (call : Except GroqError (List Char)) : Except GroqError (List Char) :=
  call

/-- Counterexample to C6: a transport failure of the remote call does not
propagate out of `groq_full_analysis` or `groq_career_recommendation`; the
bare except swallows it and returns the empty record. -/
theorem remote_failure_swallowed :
    groq_full_analysis (Except.error GroqError.transport) = Except.ok (Json.obj []) ∧
    groq_full_analysis (Except.error GroqError.transport) ≠
      Except.error GroqError.transport ∧
    groq_career_recommendation (Except.error GroqError.quota) = Except.ok (Json.obj []) ∧
    groq_career_recommendation (Except.error GroqError.quota) ≠
      Except.error GroqError.quota := by
  refine ⟨rfl, ?_, rfl, ?_⟩ <;> intro h <;> exact Except.noConfusion h

/-- C6 as amended: a transport, auth, or quota failure raised by the remote
client propagates uncaught for the summary and score-explanation requests,
while for the full-analysis and career-recommendation requests the bare
except catches it and yields the empty record instead. -/
theorem remote_failure_propagation (e : GroqError) :
    groq_summary (Except.error e) = Except.error e ∧
    groq_ats_explanation (Except.error e) = Except.error e ∧
    groq_full_analysis (Except.error e) = Except.ok (Json.obj []) ∧
    groq_career_recommendation (Except.error e) = Except.ok (Json.obj []) :=
  ⟨rfl, rfl, rfl, rfl⟩

theorem matchBracesAt_head {s m : List Char} (h : matchBracesAt s = some m) :
    ∃ t, m = lbrace :: t := by
  cases s with
  | nil => simp [matchBracesAt] at h
  | cons a rest =>
    by_cases ha : a = lbrace
    · rcases hl : lastIdx rbrace rest with _ | j
      · simp [matchBracesAt, ha, hl] at h
      · simp [matchBracesAt, ha, hl] at h
        exact ⟨_, h.symm⟩
    · simp [matchBracesAt, ha] at h

theorem reSearchBraces_head : ∀ {s m : List Char},
    reSearchBraces s = some m → ∃ t, m = lbrace :: t := by
  intro s
  induction s with
  | nil => intro m h; simp [reSearchBraces] at h
  | cons a rest ih =>
    intro m h
    rcases hm : matchBracesAt (a :: rest) with _ | m'
    · rw [reSearchBraces, hm] at h
      exact ih h
    · rw [reSearchBraces, hm] at h
      rw [Option.some.injEq] at h
      exact h ▸ matchBracesAt_head hm

theorem json_loads_obj {t : List Char} {v : Json}
    (h : json_loads (lbrace :: t) = some v) : ∃ fs, v = Json.obj fs := by
  unfold json_loads at h
  rw [show skipWs (lbrace :: t) = lbrace :: t from rfl] at h
  rw [show (lbrace :: t).length + 1 = t.length + 1 + 1 from by simp] at h
  rw [show parseValue (t.length + 1 + 1) (lbrace :: t) =
      (parseObjBody (t.length + 1) (skipWs t)).map
        (fun p => (Json.obj (objFromPairs p.1), p.2)) from by
    simp [parseValue]] at h
  rcases hp : parseObjBody (t.length + 1) (skipWs t) with _ | p
  · rw [hp] at h
    simp at h
  · rw [hp] at h
    simp only [Option.map_some'] at h
    by_cases he : skipWs p.2 = []
    · simp only [he, if_pos] at h
      exact ⟨_, ((Option.some.injEq _ _).mp h).symm⟩
    · rw [if_neg he] at h
      cases h

theorem extract_json_obj {text : List Char} {v : Json}
    (h : extract_json text = some v) : ∃ fs, v = Json.obj fs := by
  unfold extract_json at h
  rcases hr : reSearchBraces text with _ | m
  · rw [hr] at h
    cases h
  · rw [hr] at h
    obtain ⟨t, rfl⟩ := reSearchBraces_head hr
    exact json_loads_obj h

/-- C9: `groq_full_analysis` and `groq_career_recommendation` are total at
their boundary: whatever the remote call's outcome, each returns a
(possibly empty) dictionary, never a raised failure and never the absent
value, so callers may unconditionally call `.get` on the result. -/
theorem groq_wrappers_total (call : Except GroqError (List Char)) :
    (∃ fs, groq_full_analysis call = Except.ok (Json.obj fs)) ∧
    (∃ fs, groq_career_recommendation call = Except.ok (Json.obj fs)) := by
  have key : ∀ r : List Char, ∃ fs, orEmptyDict (extract_json r) = Json.obj fs := by
    intro r
    rcases hr : extract_json r with _ | j
    · exact ⟨[], rfl⟩
    · obtain ⟨fs, rfl⟩ := extract_json_obj hr
      by_cases ht : jsonTruthy (Json.obj fs)
      · exact ⟨fs, by simp [orEmptyDict, ht]⟩
      · exact ⟨[], by simp [orEmptyDict, ht]⟩
  cases call with
  | ok raw =>
    obtain ⟨fs, hfs⟩ := key raw
    exact ⟨⟨fs, by simp [groq_full_analysis, hfs]⟩,
      ⟨fs, by simp [groq_career_recommendation, hfs]⟩⟩
  | error e => exact ⟨⟨[], rfl⟩, ⟨[], rfl⟩⟩

/-- The `"skills_found"` record key. -/
def skillsFoundKey : List Char := "skills_found".toList

/-- The `"skills_missing"` record key. -/
def skillsMissingKey : List Char := "skills_missing".toList

/-- The `"strengths"` record key. -/
def strengthsKey : List Char := "strengths".toList

/-- The `"weaknesses"` record key. -/
def weaknessesKey : List Char := "weaknesses".toList

/-- The `"improvements"` record key. -/
def improvementsKey : List Char := "improvements".toList

/-- The `"resume_rewrite"` record key. -/
def resumeRewriteKey : List Char := "resume_rewrite".toList

/-- The `"recommended_roles"` record key. -/
def recommendedRolesKey : List Char := "recommended_roles".toList

/-- The `"why_fit"` record key. -/
def whyFitKey : List Char := "why_fit".toList

/-- The `"skills_to_improve"` record key. -/
def skillsToImproveKey : List Char := "skills_to_improve".toList

/-- The `"resume_upgrade_tips"` record key. -/
def resumeUpgradeTipsKey : List Char := "resume_upgrade_tips".toList

/-- The handler's read `ats.get("ats_score", 0)`. -/
def read_ats_score (ats : List (List Char × Json)) : Json :=
  dictGet ats atsScoreKey (Json.num 0)

/-- The handler's read `ats.get("skills_found", [])`. -/
def read_skills_found (ats : List (List Char × Json)) : Json :=
  dictGet ats skillsFoundKey (Json.arr [])

/-- The handler's read `ats.get("skills_missing", [])`. -/
def read_skills_missing (ats : List (List Char × Json)) : Json :=
  dictGet ats skillsMissingKey (Json.arr [])

/-- The handler's read `ats.get("strengths", [])`. -/
def read_strengths (ats : List (List Char × Json)) : Json :=
  dictGet ats strengthsKey (Json.arr [])

/-- The handler's read `ats.get("weaknesses", [])`. -/
def read_weaknesses (ats : List (List Char × Json)) : Json :=
  dictGet ats weaknessesKey (Json.arr [])

/-- The handler's read `ats.get("resume_rewrite", "")`. -/
def read_resume_rewrite (ats : List (List Char × Json)) : Json :=
  dictGet ats resumeRewriteKey (Json.str [])

/-- The handler's read `career.get("recommended_roles", [])`. -/
def read_recommended_roles (career : List (List Char × Json)) : Json :=
  dictGet career recommendedRolesKey (Json.arr [])

/-- The handler's read `career.get("why_fit", "")`. -/
def read_why_fit (career : List (List Char × Json)) : Json :=
  dictGet career whyFitKey (Json.str [])

/-- The handler's read `career.get("skills_to_improve", [])`. -/
def read_skills_to_improve (career : List (List Char × Json)) : Json :=
  dictGet career skillsToImproveKey (Json.arr [])

/-- The handler's read `career.get("resume_upgrade_tips", [])`. -/
def read_resume_upgrade_tips (career : List (List Char × Json)) : Json :=
  dictGet career resumeUpgradeTipsKey (Json.arr [])

theorem dictGet_default {d : List (List Char × Json)} {k : List Char} (dflt : Json)
    (h : k ∉ d.map Prod.fst) : dictGet d k dflt = dflt := by
  induction d with
  | nil => rfl
  | cons kv rest ih =>
    obtain ⟨k', v⟩ := kv
    rw [List.map_cons, List.mem_cons, not_or] at h
    have hk : k' ≠ k := fun e => h.1 e.symm
    simp [dictGet, hk, ih h.2]

/-- One flowable element of the generated report story: a styled paragraph
(text and style name), or a spacer, as the reportlab story the source
builds. -/
inductive Flowable where
  | para : List Char → List Char → Flowable
  | spacer : Nat → Nat → Flowable
  deriving Repr

/-- Python's str.title: the first letter of each alphabetic run is
uppercased, the rest lowercased; the flag records whether the previous
character was alphabetic. -/
def pyTitleAux : List Char → Bool → List Char
  | [], _ => []
  | c :: rest, prevAlpha =>
    (if c.isAlpha then (if prevAlpha then c.toLower else c.toUpper) else c) ::
      pyTitleAux rest c.isAlpha

/-- Embeds the source's `section.replace("_", " ").title()`. -/
def titleCase (s : List Char) : List Char :=
  pyTitleAux (s.map fun c => if c = '_' then ' ' else c) false

/-- Decimal rendering of an integer, as Python's str() of an int. -/
def intRepr (n : Int) : List Char :=
  if n < 0 then '-' :: Nat.toDigits 10 n.natAbs else Nat.toDigits 10 n.toNat

/-- The single-quote character Python's repr puts around strings. -/
def squote : Char := Char.ofNat 39

mutual

/-- Python's repr of a decoded JSON value. Escaping subtleties of Python's
repr are outside the model; every theorem renders with the same function on
both sides. -/
def pyRepr : Json → List Char
  | .null => "None".toList
  | .bool true => "True".toList
  | .bool false => "False".toList
  | .num n => intRepr n
  | .str s => squote :: s ++ [squote]
  | .arr xs => '[' :: List.intercalate ", ".toList (pyReprList xs) ++ [']']
  | .obj fs => lbrace :: List.intercalate ", ".toList (pyReprPairs fs) ++ [rbrace]

/-- repr of each value of a list, in order. -/
def pyReprList : List Json → List (List Char)
  | [] => []
  | x :: xs => pyRepr x :: pyReprList xs

/-- repr of each key/value pair of a dict, in order. -/
def pyReprPairs : List (List Char × Json) → List (List Char)
  | [] => []
  | (k, v) :: fs =>
    (squote :: k ++ [squote] ++ ": ".toList ++ pyRepr v) :: pyReprPairs fs

end

/-- Python's str() as the source's f-strings use it: a string is itself,
every other value renders as its repr. -/
def pyStr : Json → List Char
  | .str s => s
  | j => pyRepr j

/-- Embeds Python iteration `for item in x` over a decoded JSON value:
lists yield their items, strings their one-character strings, dicts their
keys; numbers, booleans and None raise TypeError, modelled as `none`. -/
def pyIter : Json → Option (List Json)
  | .arr xs => some xs
  | .str s => some (s.map fun c => Json.str [c])
  | .obj fs => some (fs.map fun kv => Json.str kv.1)
  | _ => none

/-- The five category sections the report generator loops over, in source
order. -/
def sectionKeys : List (List Char) :=
  [skillsFoundKey, skillsMissingKey, strengthsKey, weaknessesKey, improvementsKey]

/-- The bullet paragraph the generator appends for one item:
`Paragraph(f"- ...", styles["Normal"])`. -/
def bullet (item : Json) : Flowable :=
  Flowable.para ("- ".toList ++ pyStr item) "Normal".toList

/-- What the generator's loop appends for one section: a Heading3 title,
one bullet per item, then a spacer. -/
def sectionBlock (k : List Char) (items : List Json) : List Flowable :=
  Flowable.para (titleCase k) "Heading3".toList :: items.map bullet ++
    [Flowable.spacer 1 8]

/-- The generator's section loop: for each key in order, iterate
`data.get(section, [])` and append its block; a non-iterable value raises,
modelled as `none`. -/
def buildSections : List (List Char) → List (List Char × Json) → Option (List Flowable)
  | [], _ => some []
  | k :: ks, data =>
    match pyIter (dictGet data k (Json.arr [])) with
    | none => none
    | some items => (buildSections ks data).map fun rest => sectionBlock k items ++ rest

/-- Embeds `generate_pdf_report`: the story the source builds and hands to
doc.build — title, spacer, score line, spacer, then the section blocks.
Serializing the story to PDF bytes is the external library's work and is
outside the model. -/
def generate_pdf_report (data : List (List Char × Json)) : Option (List Flowable) :=
  (buildSections sectionKeys data).map fun blocks =>
    Flowable.para "ATS Resume Analysis Report".toList "Heading1".toList ::
    Flowable.spacer 1 10 ::
    Flowable.para ("ATS Score: ".toList ++ pyStr (dictGet data atsScoreKey (Json.num 0)) ++
      "%".toList) "Normal".toList ::
    Flowable.spacer 1 10 :: blocks

/-- The fixed document structure the spec describes: a title, then a score
line, then one section per category, each section listing each of its items
as a bullet (with the generator's spacer separators). -/
def specReportLayout (scoreVal : Json) (secs : List (List Char × List Json)) :
    List Flowable :=
  Flowable.para "ATS Resume Analysis Report".toList "Heading1".toList ::
  Flowable.spacer 1 10 ::
  Flowable.para ("ATS Score: ".toList ++ pyStr scoreVal ++ "%".toList) "Normal".toList ::
  Flowable.spacer 1 10 ::
  (secs.flatMap fun sec => Flowable.para (titleCase sec.1) "Heading3".toList ::
    sec.2.map bullet ++ [Flowable.spacer 1 8])

/-- The sequence stored under a section key of a record whose categories
are sequences. -/
def sectionList (data : List (List Char × Json)) (k : List Char) : List Json :=
  match dictGet data k (Json.arr []) with
  | .arr xs => xs
  | _ => []

/-- C7: any field missing from the AnalysisResult or CareerRecommendation
record is read with its empty-form default (0 for the score, the empty
string for text fields, the empty sequence for list fields) at each point
of use, so a partial or entirely empty record renders every section as
empty rather than erroring — stated per read, and for the PDF report of the
entirely empty record. -/
theorem missing_fields_default (ats career : List (List Char × Json)) :
    (atsScoreKey ∉ ats.map Prod.fst → read_ats_score ats = Json.num 0) ∧
    (skillsFoundKey ∉ ats.map Prod.fst → read_skills_found ats = Json.arr []) ∧
    (skillsMissingKey ∉ ats.map Prod.fst → read_skills_missing ats = Json.arr []) ∧
    (strengthsKey ∉ ats.map Prod.fst → read_strengths ats = Json.arr []) ∧
    (weaknessesKey ∉ ats.map Prod.fst → read_weaknesses ats = Json.arr []) ∧
    (resumeRewriteKey ∉ ats.map Prod.fst → read_resume_rewrite ats = Json.str []) ∧
    (recommendedRolesKey ∉ career.map Prod.fst →
      read_recommended_roles career = Json.arr []) ∧
    (whyFitKey ∉ career.map Prod.fst → read_why_fit career = Json.str []) ∧
    (skillsToImproveKey ∉ career.map Prod.fst →
      read_skills_to_improve career = Json.arr []) ∧
    (resumeUpgradeTipsKey ∉ career.map Prod.fst →
      read_resume_upgrade_tips career = Json.arr []) ∧
    generate_pdf_report [] = some
      [Flowable.para "ATS Resume Analysis Report".toList "Heading1".toList,
        Flowable.spacer 1 10,
        Flowable.para "ATS Score: 0%".toList "Normal".toList,
        Flowable.spacer 1 10,
        Flowable.para "Skills Found".toList "Heading3".toList, Flowable.spacer 1 8,
        Flowable.para "Skills Missing".toList "Heading3".toList, Flowable.spacer 1 8,
        Flowable.para "Strengths".toList "Heading3".toList, Flowable.spacer 1 8,
        Flowable.para "Weaknesses".toList "Heading3".toList, Flowable.spacer 1 8,
        Flowable.para "Improvements".toList "Heading3".toList, Flowable.spacer 1 8] := by
  refine ⟨fun h => dictGet_default _ h, fun h => dictGet_default _ h,
    fun h => dictGet_default _ h, fun h => dictGet_default _ h,
    fun h => dictGet_default _ h, fun h => dictGet_default _ h,
    fun h => dictGet_default _ h, fun h => dictGet_default _ h,
    fun h => dictGet_default _ h, fun h => dictGet_default _ h, ?_⟩
  rfl

/-- Witness for C7: the entirely empty records read every field as its
empty form. -/
theorem missing_fields_default_witness :
    read_ats_score [] = Json.num 0 ∧ read_skills_found [] = Json.arr [] ∧
    read_resume_rewrite [] = Json.str [] ∧ read_recommended_roles [] = Json.arr [] ∧
    read_why_fit [] = Json.str [] ∧ read_resume_upgrade_tips [] = Json.arr [] :=
  ⟨(missing_fields_default [] []).1 (by decide),
    (missing_fields_default [] []).2.1 (by decide),
    (missing_fields_default [] []).2.2.2.2.2.1 (by decide),
    (missing_fields_default [] []).2.2.2.2.2.2.1 (by decide),
    (missing_fields_default [] []).2.2.2.2.2.2.2.1 (by decide),
    (missing_fields_default [] []).2.2.2.2.2.2.2.2.2.1 (by decide)⟩

/-- C8: for every AnalysisResult record (each category sequence-valued),
the report renderer lays out the fixed document structure: a title, then a
score line, then one section per category, each section listing each of its
items as a bullet. -/
theorem generate_pdf_report_layout (data : List (List Char × Json))
    (h : ∀ k, k ∈ sectionKeys → ∃ xs, dictGet data k (Json.arr []) = Json.arr xs) :
    generate_pdf_report data =
      some (specReportLayout (dictGet data atsScoreKey (Json.num 0))
        (sectionKeys.map fun k => (k, sectionList data k))) := by
  obtain ⟨x1, h1⟩ := h skillsFoundKey (by simp [sectionKeys])
  obtain ⟨x2, h2⟩ := h skillsMissingKey (by simp [sectionKeys])
  obtain ⟨x3, h3⟩ := h strengthsKey (by simp [sectionKeys])
  obtain ⟨x4, h4⟩ := h weaknessesKey (by simp [sectionKeys])
  obtain ⟨x5, h5⟩ := h improvementsKey (by simp [sectionKeys])
  simp [generate_pdf_report, buildSections, specReportLayout, sectionKeys,
    sectionList, h1, h2, h3, h4, h5, pyIter, sectionBlock]

/-- Witness for C8 at the entirely empty record, whose sections all read as
the empty sequence. -/
theorem generate_pdf_report_layout_witness :
    generate_pdf_report [] =
      some (specReportLayout (dictGet [] atsScoreKey (Json.num 0))
        (sectionKeys.map fun k => (k, sectionList [] k))) :=
  generate_pdf_report_layout [] (fun _ _ => ⟨[], rfl⟩)

end ResumeAnalyzer
